import Mathlib

/-!
Verification of the go-poloniex client against its specification.

The repository has two Go source files.  The file available here defines the
`Poloniex` API surface: public REST fetches built on `client.do`, private
commands built on `client.doCommand`, and the streaming subscribe loops built
on `client.wsConnect` / `client.wsReset`.  The second file (the `client`
implementation: HTTP transport, nonce source, websocket connect cycle) is not
available; where a claim depends on it, the relevant behaviour is modelled
from the spec and marked as such in its doc comment.

External collaborators (the HTTP transport and `encoding/json` decoding) are
shallowly embedded as explicit parameters: a call's transport outcome and the
decode outcome of its response body are inputs to the embedded function, and
the Go `(result, err)` convention becomes `Except String`.
-/

namespace strings

/-- Embedding of Go `strings.ToUpper` as used on market names: upper-cases each
character (faithful on the ASCII market/pair names the API uses). -/
def ToUpper (s : String) : String := ⟨s.data.map Char.toUpper⟩

end strings

namespace Poloniex

/-- An HTTP request as handed to `client.do(method, resource, payload, authNeeded)`:
the method, the resource path relative to the API base, and whether the call
is authenticated (the `authNeeded` flag; all public fetches pass `false`). -/
structure Request where
  method : String
  path : String
  authenticated : Bool
deriving DecidableEq, Repr

/-- The two sequential clamping `if`s applied to `depth` in `GetOrderBook` and
`GetAllOrderBook`: `if depth > 100 { depth = 100 }; if depth < 1 { depth = 1 }`. -/
def clampDepth (depth : Int) : Int :=
  let d1 := if depth > 100 then 100 else depth
  if d1 < 1 then 1 else d1

/-- The `cat` normalisation in `GetOrderBook` / `GetAllOrderBook`:
`if cat != "bid" && cat != "ask" && cat != "both" { cat = "both" }`.
The normalised value is never used afterwards (the comment in the source says
"not implemented"); it is embedded here to mirror the code. -/
def normalizeCat (cat : String) : String :=
  if cat ≠ "bid" ∧ cat ≠ "ask" ∧ cat ≠ "both" then "both" else cat

/-- Request issued by `GetTickers`. -/
def getTickersRequest : Request :=
  { method := "GET", path := "public?command=returnTicker", authenticated := false }

/-- Request issued by `GetVolumes`. -/
def getVolumesRequest : Request :=
  { method := "GET", path := "public?command=return24hVolume", authenticated := false }

/-- Request issued by `GetCurrencies`. -/
def getCurrenciesRequest : Request :=
  { method := "GET", path := "public?command=returnCurrencies", authenticated := false }

/-- Request issued by `GetOrderBook(market, cat, depth)`:
`fmt.Sprintf("public?command=returnOrderBook&currencyPair=%s&depth=%d", strings.ToUpper(market), depth)`
after the `cat` normalisation (unused) and the depth clamping. -/
def getOrderBookRequest (market cat : String) (depth : Int) : Request :=
  let _cat := normalizeCat cat
  { method := "GET"
    path := "public?command=returnOrderBook&currencyPair="
      ++ (strings.ToUpper market ++ ("&depth=" ++ toString (clampDepth depth)))
    authenticated := false }

/-- Request issued by `GetAllOrderBook(cat, depth)`:
`fmt.Sprintf("public?command=returnOrderBook&currencyPair=all&depth=%d", depth)`
after the `cat` normalisation (unused) and the depth clamping. -/
def getAllOrderBookRequest (cat : String) (depth : Int) : Request :=
  let _cat := normalizeCat cat
  { method := "GET"
    path := "public?command=returnOrderBook&currencyPair=all&depth="
      ++ toString (clampDepth depth)
    authenticated := false }

/-- Request issued by `ChartData(currencyPair, period, start, end)`:
`fmt.Sprintf("public?command=returnChartData&currencyPair=%s&period=%d&start=%d&end=%d", strings.ToUpper(currencyPair), period, start.Unix(), end.Unix())`. -/
def chartDataRequest (currencyPair : String) (period startUnix endUnix : Int) : Request :=
  { method := "GET"
    path := "public?command=returnChartData&currencyPair="
      ++ (strings.ToUpper currencyPair
        ++ ("&period=" ++ toString period
          ++ ("&start=" ++ toString startUnix
            ++ ("&end=" ++ toString endUnix))))
    authenticated := false }

/-- The part of the `OrderBook` model struct the available source reads: the
`Error` json field (`orderBook.Error`, line 98).  The market-data fields are
declared in the unavailable second file and abstracted as one payload field. -/
structure OrderBook where
  Data : List (String × String) := []
  Error : String := ""
deriving DecidableEq, Repr

/-- Outcome of a `client.do` call followed by `json.Unmarshal` into shape `β`:
transport failure, decode failure, or a successfully decoded body.  Transport
and decoder are external collaborators, so the outcome at each request is a
parameter (`respond`) of the embedded operation. -/
inductive FetchOutcome (β : Type) where
  | transportError (msg : String)
  | decodeError (msg : String)
  | decoded (body : β)
deriving DecidableEq, Repr

/-- `GetOrderBook(market, cat, depth)`: issue the request; a transport or
decode failure is returned as that error; on a decoded body, return an error
carrying `orderBook.Error` when that field is non-empty, else the order book. -/
def GetOrderBook (market cat : String) (depth : Int)
    (respond : Request → FetchOutcome OrderBook) : Except String OrderBook :=
  match respond (getOrderBookRequest market cat depth) with
  | .transportError m => .error m
  | .decodeError m => .error m
  | .decoded ob => if ob.Error ≠ "" then .error ob.Error else .ok ob

/-- `GetAllOrderBook(cat, depth)`: issue the request; a transport or decode
failure is returned as that error; a decoded body is returned as success —
the source performs no error-field check on this path (lines 120-128). -/
def GetAllOrderBook (cat : String) (depth : Int)
    (respond : Request → FetchOutcome (List (String × OrderBook))) :
    Except String (List (String × OrderBook)) :=
  match respond (getAllOrderBookRequest cat depth) with
  | .transportError m => .error m
  | .decodeError m => .error m
  | .decoded m => .ok m

/-- Placeholder for the `Trade` model struct: it is declared in the
unavailable second file and its fields are never read by the available one. -/
structure Trade where
  raw : String
deriving DecidableEq, Repr

/-- Placeholder for the `OpenOrder` model struct, as for `Trade`. -/
structure OpenOrder where
  raw : String
deriving DecidableEq, Repr

/-- `GetTradeHistory(pair, start)` after the `doCommand` call: `transport` is
the outcome of `doCommand("returnTradeHistory", ...)`; `decodeMap` and
`decodeList` are the outcomes of `json.Unmarshal` of its body as a whole map
resp. as one list.  When `pair == "all"` the body is decoded as the whole
map; otherwise it is decoded as a list and the result is `{pair: list}`. -/
def GetTradeHistory (pair : String)
    (transport : Except String Unit)
    (decodeMap : Except String (List (String × List Trade)))
    (decodeList : Except String (List Trade)) :
    Except String (List (String × List Trade)) :=
  match transport with
  | .error e => .error e
  | .ok _ =>
    if pair == "all" then decodeMap
    else
      match decodeList with
      | .error e => .error e
      | .ok pairTrades => .ok [(pair, pairTrades)]

/-- `GetOpenOrders(pair)` after the `doCommand` call, with the same shape as
`GetTradeHistory`: `pair == "all"` decodes the whole map, any other pair
decodes one list and returns `{pair: list}`. -/
def GetOpenOrders (pair : String)
    (transport : Except String Unit)
    (decodeMap : Except String (List (String × List OpenOrder)))
    (decodeList : Except String (List OpenOrder)) :
    Except String (List (String × List OpenOrder)) :=
  match transport with
  | .error e => .error e
  | .ok _ =>
    if pair == "all" then decodeMap
    else
      match decodeList with
      | .error e => .error e
      | .ok onePairOrders => .ok [(pair, onePairOrders)]

/-- One `wsConnect` cycle's outcome as read by the subscribe loops: the
`cont` flag and the error value. -/
structure CycleOutcome where
  cont : Bool
  err : Option String
deriving DecidableEq, Repr

/-- The subscribe loop shared by `SubscribeOrderBook` and `SubscribeTicker`:
`for { if cont, err := b.client.wsConnect(symbol, handler, stopCh); !cont { return err } }`.
`wsConnect` is defined in the unavailable client file and is stateful, so it
is abstracted as a function of its three call-site arguments plus the
invocation index `i` (how many cycles have already run).  `fuel` bounds the
number of cycles examined, since the Go loop may run forever: `none` means
the loop has not returned within `fuel` cycles; `some (i, e)` means it
returned right after the cycle at index `i`, with that cycle's error `e`. -/
def subscribeCore (wsConnect : String → String → String → Nat → CycleOutcome)
    (symbol handler stopCh : String) : Nat → Nat → Option (Nat × Option String)
  | _, 0 => none
  | i, fuel+1 =>
    let c := wsConnect symbol handler stopCh i
    if c.cont then subscribeCore wsConnect symbol handler stopCh (i+1) fuel
    else some (i, c.err)

/-- `SubscribeOrderBook(symbol, updatesCh, stopCh)`: the loop starting at
invocation 0; `handler` stands for `makeOBookSubHandler(updatesCh)`. -/
def SubscribeOrderBook (wsConnect : String → String → String → Nat → CycleOutcome)
    (symbol handler stopCh : String) (fuel : Nat) : Option (Nat × Option String) :=
  subscribeCore wsConnect symbol handler stopCh 0 fuel

/-- `SubscribeTicker(updatesCh, stopCh)`: the same loop with topic `"ticker"`;
`handler` stands for `makeTickerSubHandler(updatesCh)`. -/
def SubscribeTicker (wsConnect : String → String → String → Nat → CycleOutcome)
    (handler stopCh : String) (fuel : Nat) : Option (Nat × Option String) :=
  subscribeCore wsConnect "ticker" handler stopCh 0 fuel

/-- The three states the caller's `stopCh` may be in when `wsConnect` polls
it: a stop pending (`true` sent, or the channel closed), a reset pending
(`false` sent), or no instruction pending. -/
inductive StopState where
  | stopRequested
  | resetRequested
  | quiet
deriving DecidableEq, Repr

/-- Result of one modelled `wsConnect` cycle: the `(cont, err)` pair the loop
reads, the updates the cycle delivered to the caller's channel, and whether a
connection was established during the cycle. -/
structure WsCycle where
  cont : Bool
  err : Option String
  delivered : List String
  connected : Bool
deriving DecidableEq, Repr

/-- Modelled from the spec: `client.wsConnect` is defined in the repository's
second source file, which is unavailable.  Per spec §4.6 and §8: a control
signal already indicating stop drives the controller to `Stopped` (`cont` =
false, clean, with no update delivered when no connection was established,
or after cleanly closing an established one); a pending reset or a read
error drives `Reconnecting` (`cont` = true). -/
def wsConnectCycle (sig : StopState) (connEstablished : Bool)
    (arrivals : List String) (readErr : Option String) : WsCycle :=
  match sig with
  | .stopRequested =>
    if connEstablished then
      { cont := false, err := none, delivered := arrivals, connected := true }
    else
      { cont := false, err := none, delivered := [], connected := false }
  | .resetRequested =>
    { cont := true, err := none, delivered := arrivals, connected := connEstablished }
  | .quiet =>
    { cont := true, err := readErr, delivered := arrivals, connected := connEstablished }

/-- The `(cont, err)` pair of a modelled cycle, as the subscribe loop reads it. -/
def WsCycle.outcome (c : WsCycle) : CycleOutcome := { cont := c.cont, err := c.err }

/-- Modelled from the spec: the Nonce Source lives in the unavailable client
file.  Per spec §3 and §4.1: a per-client counter whose `next()` never
returns a value less than or equal to any previously returned one.  The state
holds the last value handed out. -/
structure NonceSource where
  last : Nat
deriving DecidableEq, Repr

/-- One `next()` call on the modelled Nonce Source: the returned nonce and
the advanced source. -/
def NonceSource.next (s : NonceSource) : Nat × NonceSource :=
  (s.last + 1, ⟨s.last + 1⟩)

/-- The nonces carried by `n` sequential signed-command calls issued by one
caller on one client whose nonce source starts in state `s`. -/
def nonceTrace (s : NonceSource) : Nat → List Nat
  | 0 => []
  | n+1 => (s.next).1 :: nonceTrace (s.next).2 n

/-- Phase of one subscription controller. -/
inductive SubPhase where
  | active
  | stopped
deriving DecidableEq, Repr

/-- Modelled from the spec: the streaming state kept by the unavailable
client file — the phases of the subscription controllers and whether the
shared stream connection is open. -/
structure WsClientState where
  subs : List SubPhase
  connOpen : Bool
deriving DecidableEq, Repr

/-- Modelled from the spec: `client.wsReset` "forces every active
Subscription Controller into Stopped via the stop instruction and tears down
the shared Stream Connection once no controller remains active". -/
def wsReset (c : WsClientState) : WsClientState :=
  { subs := c.subs.map (fun _ => .stopped), connOpen := false }

/-- `UnsubscribeAll` delegates to `client.wsReset` (source lines 168-171). -/
def UnsubscribeAll (c : WsClientState) : WsClientState := wsReset c

/-- Splitting a literal path head: if `a` is the concatenation of `b` and `c`,
a path `a ++ x` regroups as `b ++ (c ++ x)`. -/
theorem append_regroup (a b c x : String) (h : a = b ++ c) :
    a ++ x = b ++ (c ++ x) := by
  subst h; rw [String.append_assoc]

/-- C7: every public market-data operation (GetTickers, GetVolumes,
GetCurrencies, GetOrderBook, GetAllOrderBook, ChartData) issues an anonymous
HTTP GET whose path starts with "public?command=" followed by the command name
and its parameters. -/
theorem publicMarketDataOpsAreAnonymousGets :
    (getTickersRequest.method = "GET" ∧ getTickersRequest.authenticated = false ∧
      getTickersRequest.path = "public?command=" ++ ("returnTicker" ++ "")) ∧
    (getVolumesRequest.method = "GET" ∧ getVolumesRequest.authenticated = false ∧
      getVolumesRequest.path = "public?command=" ++ ("return24hVolume" ++ "")) ∧
    (getCurrenciesRequest.method = "GET" ∧ getCurrenciesRequest.authenticated = false ∧
      getCurrenciesRequest.path = "public?command=" ++ ("returnCurrencies" ++ "")) ∧
    (∀ market cat depth, (getOrderBookRequest market cat depth).method = "GET" ∧
      (getOrderBookRequest market cat depth).authenticated = false ∧
      ∃ ps, (getOrderBookRequest market cat depth).path
        = "public?command=" ++ ("returnOrderBook" ++ ps)) ∧
    (∀ cat depth, (getAllOrderBookRequest cat depth).method = "GET" ∧
      (getAllOrderBookRequest cat depth).authenticated = false ∧
      ∃ ps, (getAllOrderBookRequest cat depth).path
        = "public?command=" ++ ("returnOrderBook" ++ ps)) ∧
    (∀ currencyPair period startUnix endUnix,
      (chartDataRequest currencyPair period startUnix endUnix).method = "GET" ∧
      (chartDataRequest currencyPair period startUnix endUnix).authenticated = false ∧
      ∃ ps, (chartDataRequest currencyPair period startUnix endUnix).path
        = "public?command=" ++ ("returnChartData" ++ ps)) := by
  refine ⟨⟨rfl, rfl, by decide⟩, ⟨rfl, rfl, by decide⟩, ⟨rfl, rfl, by decide⟩,
    fun market cat depth => ⟨rfl, rfl, ?_⟩,
    fun cat depth => ⟨rfl, rfl, ?_⟩,
    fun currencyPair period startUnix endUnix => ⟨rfl, rfl, ?_⟩⟩
  · exact ⟨"&currencyPair="
        ++ (strings.ToUpper market ++ ("&depth=" ++ toString (clampDepth depth))), by
      show "public?command=returnOrderBook&currencyPair=" ++ _ = _
      rw [append_regroup "public?command=returnOrderBook&currencyPair="
        "public?command=" "returnOrderBook&currencyPair=" _ (by decide),
        append_regroup "returnOrderBook&currencyPair=" "returnOrderBook"
        "&currencyPair=" _ (by decide)]⟩
  · exact ⟨"&currencyPair=all&depth=" ++ toString (clampDepth depth), by
      show "public?command=returnOrderBook&currencyPair=all&depth=" ++ _ = _
      rw [append_regroup "public?command=returnOrderBook&currencyPair=all&depth="
        "public?command=" "returnOrderBook&currencyPair=all&depth=" _ (by decide),
        append_regroup "returnOrderBook&currencyPair=all&depth=" "returnOrderBook"
        "&currencyPair=all&depth=" _ (by decide)]⟩
  · exact ⟨"&currencyPair="
        ++ (strings.ToUpper currencyPair
          ++ ("&period=" ++ toString period
            ++ ("&start=" ++ toString startUnix
              ++ ("&end=" ++ toString endUnix)))), by
      show "public?command=returnChartData&currencyPair=" ++ _ = _
      rw [append_regroup "public?command=returnChartData&currencyPair="
        "public?command=" "returnChartData&currencyPair=" _ (by decide),
        append_regroup "returnChartData&currencyPair=" "returnChartData"
        "&currencyPair=" _ (by decide)]⟩

/-- The two sequential `if`s of the source clamp `depth` into `[1, 100]`. -/
theorem clampDepth_eq_max_min (depth : Int) : clampDepth depth = max 1 (min 100 depth) := by
  unfold clampDepth
  rcases le_or_lt depth 100 with h | h <;> rcases le_or_lt 1 depth with h2 | h2 <;>
    simp [max_def, min_def] <;> omega

/-- C8: in GetOrderBook and GetAllOrderBook the depth parameter of the issued
request equals the given depth clamped into [1, 100] (above 100 becomes 100,
below 1 becomes 1, in-range kept), and the `cat` argument has no effect on the
issued request. -/
theorem orderBookDepthClampedCatIgnored :
    (∀ depth : Int, clampDepth depth = max 1 (min 100 depth)) ∧
    (∀ depth : Int, 100 < depth → clampDepth depth = 100) ∧
    (∀ depth : Int, depth < 1 → clampDepth depth = 1) ∧
    (∀ depth : Int, 1 ≤ depth → depth ≤ 100 → clampDepth depth = depth) ∧
    (∀ market cat cat' depth,
      getOrderBookRequest market cat depth = getOrderBookRequest market cat' depth) ∧
    (∀ cat cat' depth,
      getAllOrderBookRequest cat depth = getAllOrderBookRequest cat' depth) ∧
    (∀ market cat depth, (getOrderBookRequest market cat depth).path
      = "public?command=returnOrderBook&currencyPair="
        ++ (strings.ToUpper market ++ ("&depth=" ++ toString (clampDepth depth)))) ∧
    (∀ cat depth, (getAllOrderBookRequest cat depth).path
      = "public?command=returnOrderBook&currencyPair=all&depth="
        ++ toString (clampDepth depth)) := by
  refine ⟨clampDepth_eq_max_min, fun d h => ?_, fun d h => ?_, fun d h1 h2 => ?_,
    fun _ _ _ _ => rfl, fun _ _ _ => rfl, fun _ _ _ => rfl, fun _ _ => rfl⟩ <;>
  · rw [clampDepth_eq_max_min]; omega

/-- Closed instance of C8's conditional clauses at depths 250, 0 and 50. -/
theorem orderBookDepthClampedCatIgnored_witness :
    clampDepth 250 = 100 ∧ clampDepth 0 = 1 ∧ clampDepth 50 = 50 :=
  ⟨orderBookDepthClampedCatIgnored.2.1 250 (by decide),
   orderBookDepthClampedCatIgnored.2.2.1 0 (by decide),
   orderBookDepthClampedCatIgnored.2.2.2.1 50 (by decide) (by decide)⟩

/-- C10: GetOrderBook and ChartData embed the upper-cased form of the caller's
market/currencyPair argument in the request URL, so two calls whose pair
arguments differ only in letter case issue identical requests. -/
theorem requestEmbedsUppercasedPair :
    (∀ market cat depth, (getOrderBookRequest market cat depth).path
      = "public?command=returnOrderBook&currencyPair="
        ++ (strings.ToUpper market ++ ("&depth=" ++ toString (clampDepth depth)))) ∧
    (∀ currencyPair period startUnix endUnix,
      (chartDataRequest currencyPair period startUnix endUnix).path
      = "public?command=returnChartData&currencyPair="
        ++ (strings.ToUpper currencyPair
          ++ ("&period=" ++ toString period
            ++ ("&start=" ++ toString startUnix
              ++ ("&end=" ++ toString endUnix))))) ∧
    (∀ m1 m2 cat depth, strings.ToUpper m1 = strings.ToUpper m2 →
      getOrderBookRequest m1 cat depth = getOrderBookRequest m2 cat depth) ∧
    (∀ c1 c2 period startUnix endUnix, strings.ToUpper c1 = strings.ToUpper c2 →
      chartDataRequest c1 period startUnix endUnix
        = chartDataRequest c2 period startUnix endUnix) := by
  refine ⟨fun _ _ _ => rfl, fun _ _ _ _ => rfl, fun m1 m2 cat depth h => ?_,
    fun c1 c2 period s e h => ?_⟩ <;>
  · simp only [getOrderBookRequest, chartDataRequest, h]

/-- Closed instance of C10: "btc_nxt" and "BTC_nxt" differ only in case and
yield the same GetOrderBook request. -/
theorem requestEmbedsUppercasedPair_witness :
    strings.ToUpper "btc_nxt" = strings.ToUpper "BTC_nxt" ∧
    getOrderBookRequest "btc_nxt" "both" 50 = getOrderBookRequest "BTC_nxt" "both" 50 :=
  ⟨by decide, requestEmbedsUppercasedPair.2.2.1 "btc_nxt" "BTC_nxt" "both" 50 (by decide)⟩

/-- C1 counterexample: a GetAllOrderBook response body that decodes
successfully and carries a non-empty error field is returned as a success
result, not as an error — the source checks `orderBook.Error` only in
GetOrderBook. -/
theorem getAllOrderBookIgnoresErrorField :
    GetAllOrderBook "both" 10
      (fun _ => .decoded [("BTC_NXT", { Error := "Invalid depth." })])
      = Except.ok [("BTC_NXT", { Error := "Invalid depth." })] ∧
    GetAllOrderBook "both" 10
      (fun _ => .decoded [("BTC_NXT", { Error := "Invalid depth." })])
      ≠ Except.error "Invalid depth." :=
  ⟨rfl, fun hc => Except.noConfusion hc⟩

/-- C1 (amended): GetOrderBook returns an error carrying the decoded body's
non-empty error field and never a success result there; GetAllOrderBook
performs no error-field check and returns every successfully decoded body as
a success result. -/
theorem orderBookErrorFieldHandling :
    (∀ market cat depth respond ob,
      respond (getOrderBookRequest market cat depth) = .decoded ob →
      ob.Error ≠ "" →
      GetOrderBook market cat depth respond = Except.error ob.Error ∧
      ∀ r, GetOrderBook market cat depth respond ≠ Except.ok r) ∧
    (∀ cat depth respond m,
      respond (getAllOrderBookRequest cat depth) = .decoded m →
      GetAllOrderBook cat depth respond = Except.ok m) := by
  constructor
  · intro market cat depth respond ob hresp herr
    have hres : GetOrderBook market cat depth respond = Except.error ob.Error := by
      simp [GetOrderBook, hresp, herr]
    exact ⟨hres, fun r hcontra => by rw [hres] at hcontra; exact Except.noConfusion hcontra⟩
  · intro cat depth respond m hresp
    simp [GetAllOrderBook, hresp]

/-- Closed instance of C1 (amended) at concrete responses. -/
theorem orderBookErrorFieldHandling_witness :
    GetOrderBook "btc_nxt" "both" 10
      (fun _ => .decoded { Error := "Invalid currency pair." })
      = Except.error "Invalid currency pair." ∧
    GetAllOrderBook "both" 10 (fun _ => .decoded []) = Except.ok [] :=
  ⟨(orderBookErrorFieldHandling.1 "btc_nxt" "both" 10 _ _ rfl (by decide)).1,
   orderBookErrorFieldHandling.2 "both" 10 _ _ rfl⟩

/-- If the cycle at index `k` reports do-not-continue and every cycle from `i`
up to `k` reports continue, the loop started at `i` with enough fuel returns
right after cycle `k` with that cycle's error. -/
theorem subscribeCore_stops (w : String → String → String → Nat → CycleOutcome)
    (s h st : String) (k : Nat) (hk : (w s h st k).cont = false) :
    ∀ fuel i, i ≤ k → k - i < fuel →
      (∀ j, i ≤ j → j < k → (w s h st j).cont = true) →
      subscribeCore w s h st i fuel = some (k, (w s h st k).err) := by
  intro fuel
  induction fuel with
  | zero => intro i _ hlt _; omega
  | succ f ih =>
    intro i hik hfuel hbetween
    by_cases hik2 : i = k
    · subst hik2
      simp [subscribeCore, hk]
    · have hilt : i < k := lt_of_le_of_ne hik hik2
      have hci : (w s h st i).cont = true := hbetween i le_rfl hilt
      simp only [subscribeCore, hci, if_true]
      exact ih (i+1) hilt (by omega) (fun j hj hjk => hbetween j (by omega) hjk)

/-- Conversely, a loop result `some (k, e)` comes from the first
do-not-continue cycle at or after the start index: cycle `k` reported
`cont = false` with error `e`, and every earlier cycle reported continue. -/
theorem subscribeCore_sound (w : String → String → String → Nat → CycleOutcome)
    (s h st : String) :
    ∀ fuel i k e, subscribeCore w s h st i fuel = some (k, e) →
      i ≤ k ∧ (w s h st k).cont = false ∧ e = (w s h st k).err ∧
      ∀ j, i ≤ j → j < k → (w s h st j).cont = true := by
  intro fuel
  induction fuel with
  | zero => intro i k e hres; simp [subscribeCore] at hres
  | succ f ih =>
    intro i k e hres
    cases hcv : (w s h st i).cont with
    | true =>
      simp only [subscribeCore, hcv, if_true] at hres
      obtain ⟨hik, hkc, he, hbet⟩ := ih (i+1) k e hres
      refine ⟨by omega, hkc, he, fun j hj hjk => ?_⟩
      by_cases hji : j = i
      · subst hji; exact hcv
      · exact hbet j (by omega) hjk
    | false =>
      simp [subscribeCore, hcv] at hres
      obtain ⟨rfl, rfl⟩ := hres
      exact ⟨le_rfl, hcv, rfl, fun j hj hjk => by omega⟩

/-- C2: each subscribe call (SubscribeOrderBook, SubscribeTicker) returns
exactly when an underlying connect cycle reports do-not-continue, and the
returned error is that final cycle's error (nil when that cycle reported no
error): with the first do-not-continue cycle at index `k`, the call returns
`(k, err k)`; and any returned `(k, e)` identifies a `cont = false` cycle `k`
with error `e` preceded only by continue cycles. -/
theorem subscribeReturnsFinalCycleOutcome
    (w : String → String → String → Nat → CycleOutcome)
    (symbol handler stopCh : String) :
    (∀ k fuel, k < fuel → (∀ j, j < k → (w symbol handler stopCh j).cont = true) →
      (w symbol handler stopCh k).cont = false →
      SubscribeOrderBook w symbol handler stopCh fuel
        = some (k, (w symbol handler stopCh k).err)) ∧
    (∀ k e fuel, SubscribeOrderBook w symbol handler stopCh fuel = some (k, e) →
      (w symbol handler stopCh k).cont = false ∧ e = (w symbol handler stopCh k).err ∧
      ∀ j, j < k → (w symbol handler stopCh j).cont = true) ∧
    (∀ k fuel, k < fuel → (∀ j, j < k → (w "ticker" handler stopCh j).cont = true) →
      (w "ticker" handler stopCh k).cont = false →
      SubscribeTicker w handler stopCh fuel
        = some (k, (w "ticker" handler stopCh k).err)) ∧
    (∀ k e fuel, SubscribeTicker w handler stopCh fuel = some (k, e) →
      (w "ticker" handler stopCh k).cont = false ∧ e = (w "ticker" handler stopCh k).err ∧
      ∀ j, j < k → (w "ticker" handler stopCh j).cont = true) := by
  refine ⟨fun k fuel hf hbet hk =>
      subscribeCore_stops w symbol handler stopCh k hk fuel 0 (by omega) (by omega)
        (fun j _ hjk => hbet j hjk),
    fun k e fuel hres => ?_,
    fun k fuel hf hbet hk =>
      subscribeCore_stops w "ticker" handler stopCh k hk fuel 0 (by omega) (by omega)
        (fun j _ hjk => hbet j hjk),
    fun k e fuel hres => ?_⟩
  · obtain ⟨_, hkc, he, hbet⟩ := subscribeCore_sound w symbol handler stopCh fuel 0 k e hres
    exact ⟨hkc, he, fun j hjk => hbet j (by omega) hjk⟩
  · obtain ⟨_, hkc, he, hbet⟩ := subscribeCore_sound w "ticker" handler stopCh fuel 0 k e hres
    exact ⟨hkc, he, fun j hjk => hbet j (by omega) hjk⟩

/-- Closed instance of C2: two continue cycles then a failing-stop cycle make
both subscribe calls return that third cycle's error. -/
theorem subscribeReturnsFinalCycleOutcome_witness :
    SubscribeOrderBook
      (fun _ _ _ i => if i < 2 then { cont := true, err := none }
        else { cont := false, err := some "socket closed" })
      "BTC_NXT" "obookHandler" "stopCh" 5
      = some (2, some "socket closed") ∧
    SubscribeTicker
      (fun _ _ _ i => if i < 2 then { cont := true, err := none }
        else { cont := false, err := some "socket closed" })
      "tickerHandler" "stopCh" 5
      = some (2, some "socket closed") := by
  constructor
  · rw [(subscribeReturnsFinalCycleOutcome
      (fun _ _ _ i => if i < 2 then { cont := true, err := none }
        else { cont := false, err := some "socket closed" })
      "BTC_NXT" "obookHandler" "stopCh").1 2 5 (by decide) (by decide) (by decide)]
    decide
  · rw [(subscribeReturnsFinalCycleOutcome
      (fun _ _ _ i => if i < 2 then { cont := true, err := none }
        else { cont := false, err := some "socket closed" })
      "unused" "tickerHandler" "stopCh").2.2.1 2 5 (by decide) (by decide) (by decide)]
    decide

/-- C5: when a connect cycle reports continue, the loop immediately runs the
next cycle with the same topic, handler and control signal (the same
`wsConnect` arguments), and does not return control after that cycle. -/
theorem continueReconnectsImmediately
    (w : String → String → String → Nat → CycleOutcome)
    (symbol handler stopCh : String) (i fuel : Nat)
    (hc : (w symbol handler stopCh i).cont = true) :
    subscribeCore w symbol handler stopCh i (fuel+1)
      = subscribeCore w symbol handler stopCh (i+1) fuel ∧
    ∀ e, subscribeCore w symbol handler stopCh i (fuel+1) ≠ some (i, e) := by
  have hstep : subscribeCore w symbol handler stopCh i (fuel+1)
      = subscribeCore w symbol handler stopCh (i+1) fuel := by
    simp [subscribeCore, hc]
  refine ⟨hstep, fun e hcontra => ?_⟩
  rw [hstep] at hcontra
  obtain ⟨hik, _, _, _⟩ := subscribeCore_sound w symbol handler stopCh fuel (i+1) i e hcontra
  omega

/-- Closed instance of C5: a continue cycle at index 0 hands straight to the
cycle at index 1 with the same arguments. -/
theorem continueReconnectsImmediately_witness :
    subscribeCore (fun _ _ _ _ => { cont := true, err := none })
      "BTC_NXT" "obookHandler" "stopCh" 0 3
      = subscribeCore (fun _ _ _ _ => { cont := true, err := none })
        "BTC_NXT" "obookHandler" "stopCh" 1 2 :=
  (continueReconnectsImmediately (fun _ _ _ _ => { cont := true, err := none })
    "BTC_NXT" "obookHandler" "stopCh" 0 2 (by decide)).1

/-- C4: a subscribe call whose control signal already indicates stop, when no
connection was established, delivers no update and returns after the first
connect cycle with no error. -/
theorem stopPendingReturnsImmediately
    (arrivals : List String) (readErr : Option String)
    (symbol handler stopCh : String) (fuel : Nat) (hf : 0 < fuel) :
    (wsConnectCycle .stopRequested false arrivals readErr).delivered = [] ∧
    subscribeCore
      (fun _ _ _ _ => (wsConnectCycle .stopRequested false arrivals readErr).outcome)
      symbol handler stopCh 0 fuel = some (0, none) := by
  obtain ⟨f, rfl⟩ : ∃ f, fuel = f + 1 := ⟨fuel - 1, by omega⟩
  exact ⟨rfl, by simp [subscribeCore, wsConnectCycle, WsCycle.outcome]⟩

/-- Closed instance of C4 with one unit of fuel (one connect cycle). -/
theorem stopPendingReturnsImmediately_witness :
    (wsConnectCycle .stopRequested false ["upd1"] (some "read error")).delivered = [] ∧
    subscribeCore
      (fun _ _ _ _ => (wsConnectCycle .stopRequested false ["upd1"] (some "read error")).outcome)
      "BTC_NXT" "obookHandler" "stopCh" 0 1 = some (0, none) :=
  stopPendingReturnsImmediately ["upd1"] (some "read error")
    "BTC_NXT" "obookHandler" "stopCh" 1 (by decide)

/-- Every nonce in a trace started from source state `s` exceeds `s.last`. -/
theorem nonceTrace_mem_gt (n : Nat) :
    ∀ (s : NonceSource) (m : Nat), m ∈ nonceTrace s n → s.last < m := by
  induction n with
  | zero => intro s m hm; simp [nonceTrace] at hm
  | succ k ih =>
    intro s m hm
    simp only [nonceTrace, NonceSource.next, List.mem_cons] at hm
    rcases hm with rfl | hm
    · omega
    · have := ih ⟨s.last + 1⟩ m hm
      simp only at this
      omega

/-- C3: the nonces of `N` sequential signed-command calls from one caller on
one client are strictly increasing, with no repeated value. -/
theorem noncesStrictlyIncreasing (s : NonceSource) (n : Nat) :
    (nonceTrace s n).Pairwise (· < ·) ∧ (nonceTrace s n).Nodup := by
  have hp : ∀ (s : NonceSource) (n : Nat), (nonceTrace s n).Pairwise (· < ·) := by
    intro s n
    induction n generalizing s with
    | zero => simp [nonceTrace]
    | succ k ih =>
      simp only [nonceTrace, NonceSource.next]
      refine List.Pairwise.cons (fun m hm => ?_) (ih _)
      have := nonceTrace_mem_gt k ⟨s.last + 1⟩ m hm
      simp only at this
      omega
  exact ⟨hp s n, (hp s n).imp ne_of_lt⟩

/-- C6: after UnsubscribeAll, every subscription controller (whatever its
phase was) is stopped, none remains active, and the shared stream connection
is torn down. -/
theorem unsubscribeAllStopsAllAndClosesConn (c : WsClientState) :
    (UnsubscribeAll c).subs.all (· == SubPhase.stopped) = true ∧
    (UnsubscribeAll c).connOpen = false ∧
    (UnsubscribeAll c).subs.length = c.subs.length := by
  refine ⟨?_, rfl, by simp [UnsubscribeAll, wsReset]⟩
  simp [UnsubscribeAll, wsReset, List.all_eq_true]

/-- C9: with a pair other than "all", a successful GetTradeHistory or
GetOpenOrders result is the one-key map from the given pair to the decoded
list; with pair "all" the decoded whole map is returned directly. -/
theorem singlePairResultsKeyedByPair :
    (∀ pair decodeMap trades, pair ≠ "all" →
      GetTradeHistory pair (.ok ()) decodeMap (.ok trades) = .ok [(pair, trades)] ∧
      ([(pair, trades)].map Prod.fst = [pair])) ∧
    (∀ decodeMap decodeList,
      GetTradeHistory "all" (.ok ()) decodeMap decodeList = decodeMap) ∧
    (∀ pair decodeMap orders, pair ≠ "all" →
      GetOpenOrders pair (.ok ()) decodeMap (.ok orders) = .ok [(pair, orders)] ∧
      ([(pair, orders)].map Prod.fst = [pair])) ∧
    (∀ decodeMap decodeList,
      GetOpenOrders "all" (.ok ()) decodeMap decodeList = decodeMap) := by
  refine ⟨fun pair dm l h => ⟨?_, rfl⟩, fun dm dl => rfl,
    fun pair dm l h => ⟨?_, rfl⟩, fun dm dl => rfl⟩ <;>
  · simp [GetTradeHistory, GetOpenOrders, h]

/-- Closed instance of C9 at the pair "BTC_ETH". -/
theorem singlePairResultsKeyedByPair_witness :
    GetTradeHistory "BTC_ETH" (.ok ()) (.ok []) (.ok [⟨"t1"⟩])
      = .ok [("BTC_ETH", [⟨"t1"⟩])] ∧
    GetOpenOrders "BTC_ETH" (.ok ()) (.ok []) (.ok [])
      = .ok [("BTC_ETH", [])] :=
  ⟨(singlePairResultsKeyedByPair.1 "BTC_ETH" (.ok []) [⟨"t1"⟩] (by decide)).1,
   (singlePairResultsKeyedByPair.2.2.1 "BTC_ETH" (.ok []) [] (by decide)).1⟩

end Poloniex
